import Mathlib

/-!
Verification development for the cinodefs-analyzer repository.

The analyzer is glue code over external collaborators (the cinode storage
library, the Go protobuf runtime, and the jbenet base58 codec).  We embed the
repository code (internal/cinodefs_analyzer/analyzer.go) shallowly: the pure
helpers (hex dump, base64, base58) are translated as executable Lean
functions, and the external collaborator entry points (proto.Marshal,
proto.Unmarshal, common.BlobNameFromBytes, blenc.BE.Open, Go string
conversion) are gathered in an explicit environment record Env so that
theorems quantify over the collaborator behaviour the code actually observes.
-/

/-- Mirror of protobuf.KeyInfo: the optional symmetric key attached to an
entrypoint.  Only the Key field is used by the analyzer. -/
structure KeyInfo where
  key : List UInt8 := []
  deriving DecidableEq, Repr

/-- Mirror of protobuf.Entrypoint (the binary Reference record): blob name
bytes, declared MIME type, optional key info and the optional validity
window in microsecond Unix timestamps (zero means unbounded). -/
structure Entrypoint where
  blobName : List UInt8 := []
  mimeType : String := ""
  keyInfo : Option KeyInfo := none
  notValidBeforeUnixMicro : Int := 0
  notValidAfterUnixMicro : Int := 0
  deriving DecidableEq, Repr

/-- Mirror of common.BlobName as the analyzer observes it: the raw name bytes
together with the blob type tag returned by BlobName.Type(). -/
structure BlobName where
  raw : List UInt8 := []
  btype : UInt8 := 0
  deriving DecidableEq, Repr

/-- Mirror of blobtypes.DynamicLink: the reserved type tag of dynamic-link
blobs.  Only equality against it matters for the analyzer. -/
def dynamicLinkType : UInt8 := 1

/-- Mirror of cinodefs.CinodeDirMimeType: the reserved directory MIME
constant.  Only equality against it matters for the analyzer. -/
def cinodeDirMimeType : String := "application/cinode-dir"

/-- Mirror of the ParsedEP struct of analyzer.go (the Classified Entry of the
spec): zero values match the Go zero value of the struct. -/
structure ParsedEP where
  Name : String := ""
  EP : Option Entrypoint := none
  Str : String := ""
  BN : Option BlobName := none
  MimeType : String := ""
  IsDir : Bool := false
  IsLink : Bool := false
  NotValidBefore : Option Int := none
  NotValidAfter : Option Int := none
  Err : String := ""
  deriving DecidableEq, Repr

/-- Mirror of the EPData struct of analyzer.go (the Rendered View of the
spec): zero values match the Go zero value of the struct. -/
structure EPData where
  EP : ParsedEP := {}
  EPDump : String := ""
  ContentErr : String := ""
  ContentHexDump : String := ""
  ContentLen : Nat := 0
  Link : ParsedEP := {}
  DirErr : String := ""
  DirContent : List ParsedEP := []
  Image : String := ""
  Text : String := ""
  DefaultEP : String := ""
  deriving DecidableEq, Repr

/-! ### The jbenet go-base58 codec

The analyzer depends on base58.Encode and base58.Decode from
github.com/jbenet/go-base58.  We give an executable model of that library:
big-integer base conversion over the Bitcoin alphabet, preserving leading
zero bytes as leading alphabet-zero characters, with Decode returning the
empty slice on any character outside the alphabet.  The big-integer loops are
written with an explicit fuel argument (the loops of the Go library terminate
because the accumulator shrinks; fuel bounded by the accumulator itself is
always sufficient). -/

/-- The Bitcoin base58 alphabet used by go-base58 (BTCAlphabet). -/
def b58Alphabet : List Char :=
  "123456789ABCDEFGHJKLMNPQRSTUVWXYZabcdefghijkmnopqrstuvwxyz".data

/-- Digits of a natural number in base 58, most significant first
(empty for zero), written with structural fuel. -/
def b58DigitsAux : Nat → Nat → List Nat → List Nat
  | 0, _, acc => acc
  | _ + 1, 0, acc => acc
  | fuel + 1, n + 1, acc =>
      b58DigitsAux fuel ((n + 1) / 58) (((n + 1) % 58) :: acc)

/-- Bytes of a natural number, big-endian and minimal (empty for zero),
mirroring big.Int.Bytes, written with structural fuel. -/
def natBytesAux : Nat → Nat → List UInt8 → List UInt8
  | 0, _, acc => acc
  | _ + 1, 0, acc => acc
  | fuel + 1, n + 1, acc =>
      natBytesAux fuel ((n + 1) / 256) (UInt8.ofNat ((n + 1) % 256) :: acc)

/-- The natural number denoted by big-endian bytes (big.Int.SetBytes). -/
def bytesToNat (b : List UInt8) : Nat :=
  b.foldl (fun a c => a * 256 + c.toNat) 0

/-- Model of base58.Encode from github.com/jbenet/go-base58: base-58 digits
of the big-endian value, prefixed by one alphabet-zero character per leading
zero byte of the input. -/
def base58Encode (b : List UInt8) : String :=
  let n := bytesToNat b
  let digits := (b58DigitsAux n n []).map (fun d => b58Alphabet.getD d ' ')
  let zeros := (b.takeWhile (fun c => c == (0 : UInt8))).map (fun _ => '1')
  String.mk (zeros ++ digits)

/-- Model of base58.Decode from github.com/jbenet/go-base58: accumulate the
base-58 value of the characters (returning the empty slice if any character
is outside the alphabet), then emit its minimal big-endian bytes prefixed by
one zero byte per leading alphabet-zero character. -/
def base58Decode (s : String) : List UInt8 :=
  match s.data.mapM (fun c => b58Alphabet.findIdx? (fun a => a == c)) with
  | none => []
  | some ds =>
      let n := ds.foldl (fun a d => a * 58 + d) 0
      let zeros := (s.data.takeWhile (fun c => c == '1')).map (fun _ => (0 : UInt8))
      zeros ++ natBytesAux n n []

/-! ### The hex dump and the base64 image payload -/

/-- Lowercase hex digit characters, as produced by fmt %02x. -/
def hexDigitChar (d : Nat) : Char :=
  if d < 10 then Char.ofNat (48 + d) else Char.ofNat (87 + d)

/-- Two lowercase hex digits of one byte (fmt %02x on a value below 256). -/
def hexByte (b : UInt8) : String :=
  String.mk [hexDigitChar (b.toNat / 16), hexDigitChar (b.toNat % 16)]

/-- The separator written after the byte at zero-based index i in the hex
dump loop of extractParams: a newline after every 32nd byte, two spaces
after every 8th byte, one space otherwise. -/
def hexSep (i : Nat) : String :=
  if (i + 1) % 32 = 0 then "\n" else if (i + 1) % 8 = 0 then "  " else " "

/-- The body of the hex dump loop of extractParams: two hex digits and a
separator per byte, the index running from the given start. -/
def dumpBytes : Nat → List UInt8 → String
  | _, [] => ""
  | i, b :: rest => hexByte b ++ hexSep i ++ dumpBytes (i + 1) rest

/-- maxBytesDump of extractParams: 512 * 4 bytes. -/
def maxBytesDump : Nat := 512 * 4

/-- The hex dump computed by extractParams: the loop body over the first
maxBytesDump bytes, followed by the literal more-suffix when the content is
longer than the cap. -/
def hexDump (content : List UInt8) : String :=
  dumpBytes 0 (content.take maxBytesDump) ++
    (if maxBytesDump < content.length then
      ".... (" ++ toString (content.length - maxBytesDump) ++ " more)"
    else "")

/-- Character of the standard base64 alphabet. -/
def b64Char (n : Nat) : Char :=
  if n < 26 then Char.ofNat (65 + n)
  else if n < 52 then Char.ofNat (97 + (n - 26))
  else if n < 62 then Char.ofNat (48 + (n - 52))
  else if n = 62 then '+'
  else '/'

/-- Model of encoding/base64 RawStdEncoding.EncodeToString: standard
alphabet, no padding. -/
def base64RawStd : List UInt8 → String
  | [] => ""
  | [a] =>
      String.mk [b64Char (a.toNat / 4), b64Char (a.toNat % 4 * 16)]
  | [a, b] =>
      String.mk [b64Char (a.toNat / 4), b64Char (a.toNat % 4 * 16 + b.toNat / 16),
        b64Char (b.toNat % 16 * 4)]
  | a :: b :: c :: rest =>
      String.mk [b64Char (a.toNat / 4), b64Char (a.toNat % 4 * 16 + b.toNat / 16),
        b64Char (b.toNat % 16 * 4 + c.toNat / 64), b64Char (c.toNat % 64)] ++
        base64RawStd rest

/-! ### The collaborator environment

The analyzer calls external libraries through these entry points.  The code
under verification treats them as black boxes, so the embedding passes them
explicitly.  The dsRawGet channel models the datastore read of the raw
(pre-decryption) bytes of a blob: the collaborator offers it, and whether the
analyzer consults it is exactly what claim C7 is about. -/

structure Env where
  b58enc : List UInt8 → String
  b58dec : String → List UInt8
  protoMarshal : Entrypoint → Except String (List UInt8)
  protoUnmarshalEP : List UInt8 → Except String Entrypoint
  protoUnmarshalDir : List UInt8 → Option String × List (String × Entrypoint)
  blobNameFromBytes : List UInt8 → Except String BlobName
  beOpen : BlobName → List UInt8 → Except String (List UInt8)
  dsRawGet : BlobName → Except String (List UInt8)
  stringOfBytes : List UInt8 → String
  cfgEntrypoint : String

/-! ### The analyzer functions (analyzer.go) -/

/-- Embedding of getParsedEP (analyzer.go lines 76 to 110): marshal the
entrypoint, parse the blob name, then build the classified entry; any error
short-circuits to a ParsedEP holding only the error message. -/
def getParsedEP (env : Env) (ep : Entrypoint) (name : String) : ParsedEP :=
  match env.protoMarshal ep with
  | .error e => { Err := e }
  | .ok epBytes =>
    match env.blobNameFromBytes ep.blobName with
    | .error e => { Err := e }
    | .ok bn =>
      { IsDir := ep.mimeType == cinodeDirMimeType
        IsLink := bn.btype == dynamicLinkType
        Name := name
        EP := some ep
        Str := env.b58enc epBytes
        BN := some bn
        MimeType := ep.mimeType
        NotValidBefore :=
          if ep.notValidBeforeUnixMicro > 0 then some ep.notValidBeforeUnixMicro else none
        NotValidAfter :=
          if ep.notValidAfterUnixMicro > 0 then some ep.notValidAfterUnixMicro else none }

/-- Embedding of getParsedEPFromBytes (analyzer.go lines 112 to 119):
unmarshal the entrypoint bytes, propagating the unmarshal error. -/
def getParsedEPFromBytes (env : Env) (epBytes : List UInt8) (name : String) : ParsedEP :=
  match env.protoUnmarshalEP epBytes with
  | .error e => { Err := e }
  | .ok ep => getParsedEP env ep name

/-- Embedding of getParsedEPFromString (analyzer.go lines 121 to 127):
base58-decode the text and demand that re-encoding reproduces it exactly. -/
def getParsedEPFromString (env : Env) (epString : String) (name : String) : ParsedEP :=
  let epBytes := env.b58dec epString
  if env.b58enc epBytes ≠ epString then
    { Err := "invalid entrypoint - not a base58 data" }
  else
    getParsedEPFromBytes env epBytes name

/-- The key bytes passed to blenc Open: ep.KeyInfo.GetKey() with Go nil
getters yielding the empty slice. -/
def epKeyBytes : Option Entrypoint → List UInt8
  | none => []
  | some ep => (ep.keyInfo.map KeyInfo.key).getD []

/-- The blob name bytes of an optional entrypoint pointer, Go nil getters
yielding the empty slice. -/
def epBlobNameBytes : Option Entrypoint → List UInt8
  | none => []
  | some ep => ep.blobName

/-- Embedding of readBlob (analyzer.go lines 143 to 156): re-parse the blob
name, then open the decrypted content through the blenc layer and read it
fully. -/
def readBlob (env : Env) (ep : Option Entrypoint) : Except String (List UInt8) :=
  match env.blobNameFromBytes (epBlobNameBytes ep) with
  | .error e => .error e
  | .ok bn => env.beOpen bn (epKeyBytes ep)

/-- The switch statement of extractParams (analyzer.go lines 179 to 219)
once the content has been read: hex dump and length are recorded, then the
classification branches are tried in the fixed order of the Go switch. -/
def branchView (env : Env) (epp : ParsedEP) (content : List UInt8) : EPData :=
  let base : EPData :=
    { DefaultEP := env.cfgEntrypoint
      EP := epp
      ContentHexDump := hexDump content
      ContentLen := content.length }
  if epp.IsLink then
    { base with Link := getParsedEPFromBytes env content "" }
  else if epp.IsDir then
    { base with
        DirErr := (env.protoUnmarshalDir content).1.getD ""
        DirContent :=
          (env.protoUnmarshalDir content).2.map (fun e => getParsedEP env e.2 e.1) }
  else if epp.MimeType.startsWith "image/" then
    { base with Image := base64RawStd content }
  else if epp.MimeType.startsWith "text/" then
    { base with Text := env.stringOfBytes content }
  else base

/-- Embedding of extractParams (analyzer.go lines 158 to 222): the full
entrypoint-to-view pipeline, branching on classification with the fixed
precedence of the Go switch statement. -/
def extractParams (env : Env) (eps : String) : EPData :=
  if eps = "" then
    { DefaultEP := env.cfgEntrypoint, EP := { Err := "Missing entrypoint data" } }
  else
    let epp := getParsedEPFromString env eps ""
    if epp.Err ≠ "" then
      { DefaultEP := env.cfgEntrypoint, EP := epp }
    else
      match readBlob env epp.EP with
      | .error e => { DefaultEP := env.cfgEntrypoint, EP := epp, ContentErr := e }
      | .ok content => branchView env epp content

/-! ### The Link Payload Parser

Modelled from the spec: the Link Payload Parser (spec section 4.2) is a core
component of this repository, but its implementation is not among the source
files under verification (only the detail template consumes its output
fields).  The definitions below therefore follow the words of the spec: a
cursor over the raw bytes consumed in fixed order (1 version byte, a
fixed-size public key, an 8-byte big-endian nonce, a fixed-size signature, an
8-byte big-endian content version, 1 IV-length byte whose declared length
must fit in 7 bits, then that many IV bytes). -/

/-- Modelled from the spec: the decode errors of the link payload parser. -/
inductive LinkPayloadError where
  | truncatedLinkPayload
  | invalidIVSize
  deriving DecidableEq, Repr

/-- Modelled from the spec: the decoded body of a dynamic-link blob. -/
structure LinkPayload where
  version : UInt8
  publicKey : List UInt8
  nonce : Nat
  signature : List UInt8
  contentVersion : Nat
  iv : List UInt8
  deriving DecidableEq, Repr

/-- Modelled from the spec: the link payload parser, parameterised by the
fixed public-key and signature sizes.  Running out of bytes at any step
fails with truncatedLinkPayload; an IV-length byte with its high bit set
fails with invalidIVSize before any IV byte is consumed; no partial payload
is ever produced. -/
def parseLinkPayload (pkLen sigLen : Nat) (b : List UInt8) : Except LinkPayloadError LinkPayload :=
  if b.length < 1 then .error .truncatedLinkPayload else
  let r1 := b.drop 1
  if r1.length < pkLen then .error .truncatedLinkPayload else
  let r2 := r1.drop pkLen
  if r2.length < 8 then .error .truncatedLinkPayload else
  let r3 := r2.drop 8
  if r3.length < sigLen then .error .truncatedLinkPayload else
  let r4 := r3.drop sigLen
  if r4.length < 8 then .error .truncatedLinkPayload else
  let r5 := r4.drop 8
  if r5.length < 1 then .error .truncatedLinkPayload else
  let ivLen := (r5.headD 0).toNat
  if 0x80 ≤ ivLen then .error .invalidIVSize else
  let r6 := r5.drop 1
  if r6.length < ivLen then .error .truncatedLinkPayload else
  .ok { version := b.headD 0
        publicKey := r1.take pkLen
        nonce := bytesToNat (r2.take 8)
        signature := r3.take sigLen
        contentVersion := bytesToNat (r4.take 8)
        iv := r6.take ivLen }

/-- The minimum length of the fixed-size fields of a link payload:
1 version byte, the public key, 8 nonce bytes, the signature, 8 content
version bytes and 1 IV-length byte. -/
def linkPayloadMinLen (pkLen sigLen : Nat) : Nat := pkLen + sigLen + 18

/-! ### Generic helper lemmas -/

instance instDecEqExceptLocal {e a : Type} [DecidableEq e] [DecidableEq a] :
    DecidableEq (Except e a) := fun x y =>
  match x, y with
  | .ok u, .ok v =>
    if h : u = v then .isTrue (by rw [h]) else .isFalse (by intro c; injection c; contradiction)
  | .error u, .error v =>
    if h : u = v then .isTrue (by rw [h]) else .isFalse (by intro c; injection c; contradiction)
  | .ok _, .error _ => .isFalse (by intro c; exact Except.noConfusion c)
  | .error _, .ok _ => .isFalse (by intro c; exact Except.noConfusion c)

theorem strData_append (a b : String) : (a ++ b).data = a.data ++ b.data := rfl

theorem headD_drop (l : List UInt8) (n : Nat) : (l.drop n).headD 0 = l.getD n 0 := by
  induction n generalizing l with
  | zero => cases l <;> rfl
  | succ n ih => cases l with
    | nil => rfl
    | cons a l => simp [ih l]

/-! ### Success-path characterisations -/

/-- The classified entry built by getParsedEP when both the marshal and the
blob name parse succeed. -/
def mkParsedEP (env : Env) (ep : Entrypoint) (name : String)
    (epBytes : List UInt8) (bn : BlobName) : ParsedEP :=
  { IsDir := ep.mimeType == cinodeDirMimeType
    IsLink := bn.btype == dynamicLinkType
    Name := name
    EP := some ep
    Str := env.b58enc epBytes
    BN := some bn
    MimeType := ep.mimeType
    NotValidBefore :=
      if ep.notValidBeforeUnixMicro > 0 then some ep.notValidBeforeUnixMicro else none
    NotValidAfter :=
      if ep.notValidAfterUnixMicro > 0 then some ep.notValidAfterUnixMicro else none }

theorem getParsedEP_marshal_err (env : Env) (ep : Entrypoint) (name : String) (e : String)
    (hm : env.protoMarshal ep = .error e) :
    getParsedEP env ep name = { Err := e } := by
  unfold getParsedEP; rw [hm]

theorem getParsedEP_bn_err (env : Env) (ep : Entrypoint) (name : String)
    (epBytes : List UInt8) (e : String)
    (hm : env.protoMarshal ep = .ok epBytes)
    (hb : env.blobNameFromBytes ep.blobName = .error e) :
    getParsedEP env ep name = { Err := e } := by
  unfold getParsedEP; rw [hm, hb]

theorem getParsedEP_ok (env : Env) (ep : Entrypoint) (name : String)
    (epBytes : List UInt8) (bn : BlobName)
    (hm : env.protoMarshal ep = .ok epBytes)
    (hb : env.blobNameFromBytes ep.blobName = .ok bn) :
    getParsedEP env ep name = mkParsedEP env ep name epBytes bn := by
  unfold getParsedEP; rw [hm, hb]; rfl

theorem getParsedEPFromBytes_err (env : Env) (b : List UInt8) (name e : String)
    (hu : env.protoUnmarshalEP b = .error e) :
    getParsedEPFromBytes env b name = { Err := e } := by
  unfold getParsedEPFromBytes; rw [hu]

theorem getParsedEPFromBytes_ok (env : Env) (b : List UInt8) (name : String) (ep : Entrypoint)
    (hu : env.protoUnmarshalEP b = .ok ep) :
    getParsedEPFromBytes env b name = getParsedEP env ep name := by
  unfold getParsedEPFromBytes; rw [hu]

theorem getParsedEPFromString_rt (env : Env) (eps name : String)
    (hrt : env.b58enc (env.b58dec eps) = eps) :
    getParsedEPFromString env eps name = getParsedEPFromBytes env (env.b58dec eps) name := by
  unfold getParsedEPFromString; simp [hrt]

theorem getParsedEPFromString_notb58 (env : Env) (eps name : String)
    (hrt : env.b58enc (env.b58dec eps) ≠ eps) :
    getParsedEPFromString env eps name = { Err := "invalid entrypoint - not a base58 data" } := by
  unfold getParsedEPFromString; simp [hrt]

theorem readBlob_some (env : Env) (ep : Entrypoint) (bn : BlobName)
    (hb : env.blobNameFromBytes ep.blobName = .ok bn) :
    readBlob env (some ep) = env.beOpen bn (epKeyBytes (some ep)) := by
  unfold readBlob epBlobNameBytes; rw [hb]

theorem extractParams_success (env : Env) (eps : String) (ep : Entrypoint)
    (epBytes : List UInt8) (bn : BlobName)
    (h0 : eps ≠ "")
    (hrt : env.b58enc (env.b58dec eps) = eps)
    (hu : env.protoUnmarshalEP (env.b58dec eps) = .ok ep)
    (hm : env.protoMarshal ep = .ok epBytes)
    (hb : env.blobNameFromBytes ep.blobName = .ok bn) :
    extractParams env eps =
      match env.beOpen bn (epKeyBytes (some ep)) with
      | .error e =>
        { DefaultEP := env.cfgEntrypoint, EP := mkParsedEP env ep "" epBytes bn, ContentErr := e }
      | .ok content => branchView env (mkParsedEP env ep "" epBytes bn) content := by
  have hepp : getParsedEPFromString env eps "" = mkParsedEP env ep "" epBytes bn := by
    rw [getParsedEPFromString_rt env eps "" hrt, getParsedEPFromBytes_ok env _ _ _ hu,
      getParsedEP_ok env ep "" epBytes bn hm hb]
  unfold extractParams
  rw [if_neg h0]
  simp only [hepp]
  have herr : ((mkParsedEP env ep "" epBytes bn).Err ≠ "") = False := by
    simp [mkParsedEP]
  simp only [herr, if_false]
  rw [show (mkParsedEP env ep "" epBytes bn).EP = some ep from rfl,
    readBlob_some env ep bn hb]

theorem branchView_EP (env : Env) (epp : ParsedEP) (c : List UInt8) :
    (branchView env epp c).EP = epp := by
  unfold branchView; split_ifs <;> rfl

theorem branchView_ContentHexDump (env : Env) (epp : ParsedEP) (c : List UInt8) :
    (branchView env epp c).ContentHexDump = hexDump c := by
  unfold branchView; split_ifs <;> rfl

theorem branchView_ContentLen (env : Env) (epp : ParsedEP) (c : List UInt8) :
    (branchView env epp c).ContentLen = c.length := by
  unfold branchView; split_ifs <;> rfl

theorem branchView_ContentErr (env : Env) (epp : ParsedEP) (c : List UInt8) :
    (branchView env epp c).ContentErr = "" := by
  unfold branchView; split_ifs <;> rfl

theorem extractParams_EP (env : Env) (eps : String) (h0 : eps ≠ "") :
    (extractParams env eps).EP = getParsedEPFromString env eps "" := by
  unfold extractParams
  rw [if_neg h0]
  by_cases h : (getParsedEPFromString env eps "").Err ≠ ""
  · rw [if_pos h]
  · rw [if_neg h]
    cases readBlob env (getParsedEPFromString env eps "").EP with
    | error e => rfl
    | ok content => exact branchView_EP env _ content

/-! ### Concrete collaborator environments

These instantiate Env for witnesses and counterexamples.  The base58 codec
is the executable model of the real library above.  blobNameFromBytes
rejects an empty blob name (cinode common.BlobNameFromBytes validates its
input; an empty slice has no type byte and is invalid) and otherwise reports
the first byte as the type tag. -/

def baseEnv : Env :=
  { b58enc := base58Encode
    b58dec := base58Decode
    protoMarshal := fun _ => .error "cannot marshal"
    protoUnmarshalEP := fun _ => .error "cannot parse"
    protoUnmarshalDir := fun _ => (none, [])
    blobNameFromBytes := fun b =>
      if b = [] then .error "empty blob name" else .ok { raw := b, btype := b.headD 0 }
    beOpen := fun _ _ => .error "not found"
    dsRawGet := fun _ => .error "not available"
    stringOfBytes := fun _ => ""
    cfgEntrypoint := "" }

/-- Environment for the C1 counterexample.  The bytes 0x12 0x01 0x61 are the
proto3 wire encoding of an Entrypoint whose mime_type field (field 2,
length-delimited) is the one-byte string a and whose blob_name is absent:
the Go protobuf runtime unmarshals them successfully, and the resulting
message re-marshals to the same bytes, but its blob name is empty and is
rejected by common.BlobNameFromBytes. -/
def envC1 : Env :=
  { baseEnv with
    protoUnmarshalEP := fun b =>
      if b = [0x12, 0x01, 0x61] then .ok { blobName := [], mimeType := "a" }
      else .error "cannot parse"
    protoMarshal := fun ep =>
      if ep = { blobName := [], mimeType := "a" } then .ok [0x12, 0x01, 0x61]
      else .error "cannot marshal" }

/-- Environment for the C2 counterexample, identical in kind to envC1 but at
the distinct input 0x12 0x01 0x62 (mime_type is the one-byte string b). -/
def envC2 : Env :=
  { baseEnv with
    protoUnmarshalEP := fun b =>
      if b = [0x12, 0x01, 0x62] then .ok { blobName := [], mimeType := "b" }
      else .error "cannot parse"
    protoMarshal := fun ep =>
      if ep = { blobName := [], mimeType := "b" } then .ok [0x12, 0x01, 0x62]
      else .error "cannot marshal" }

/-- Environment for the C1 witness: the bytes [10] unmarshal to a reference
with blob name [2], and that reference re-marshals to [10] (a canonical
encoding). -/
def envW1 : Env :=
  { baseEnv with
    protoUnmarshalEP := fun b =>
      if b = [10] then .ok { blobName := [2] } else .error "cannot parse"
    protoMarshal := fun ep =>
      if ep = { blobName := [2] } then .ok [10] else .error "cannot marshal" }

/-- C1.  The claim as frozen: whenever the text is non-empty, its base58
decoding re-encodes to the text, and the decoded bytes unmarshal as a
Reference, the Str field of the parsed entry equals the input text.  The
counterexample below shows the three conditions do not suffice (the blob
name check of getParsedEP can still fail, zeroing Str).  Amended claim,
proved here: if in addition the re-marshalled Reference reproduces the
decoded bytes and its blob name is accepted, then decoding fully succeeds
and the canonical re-encoding Str equals the input text exactly. -/
theorem c1_encode_decode_roundtrip (env : Env) (eps : String) (ep : Entrypoint) (bn : BlobName)
    (h0 : eps ≠ "")
    (hrt : env.b58enc (env.b58dec eps) = eps)
    (hu : env.protoUnmarshalEP (env.b58dec eps) = .ok ep)
    (hm : env.protoMarshal ep = .ok (env.b58dec eps))
    (hb : env.blobNameFromBytes ep.blobName = .ok bn) :
    (getParsedEPFromString env eps "").Str = eps
  ∧ (getParsedEPFromString env eps "").Err = "" := by
  rw [getParsedEPFromString_rt env eps "" hrt, getParsedEPFromBytes_ok env _ _ _ hu,
    getParsedEP_ok env ep "" _ bn hm hb]
  exact ⟨hrt, rfl⟩

/-- C1 witness: a concrete run of the amended round-trip theorem. -/
theorem c1_encode_decode_roundtrip_witness :
    (getParsedEPFromString envW1 (base58Encode [10]) "").Str = base58Encode [10]
  ∧ (getParsedEPFromString envW1 (base58Encode [10]) "").Err = "" :=
  c1_encode_decode_roundtrip envW1 (base58Encode [10]) { blobName := [2] }
    { raw := [2], btype := 2 } (by decide) (by decide) (by decide) (by decide) (by decide)

/-- C1 counterexample: at the text base58Encode [0x12, 0x01, 0x61] all three
conditions of the frozen claim hold (non-empty, exact base58 round-trip,
bytes unmarshal as a Reference), yet the parsed entry records the blob name
error and its Str field is empty, not the input text. -/
theorem c1_counterexample :
    base58Encode [0x12, 0x01, 0x61] ≠ ""
  ∧ envC1.b58enc (envC1.b58dec (base58Encode [0x12, 0x01, 0x61])) = base58Encode [0x12, 0x01, 0x61]
  ∧ envC1.protoUnmarshalEP (envC1.b58dec (base58Encode [0x12, 0x01, 0x61])) =
      .ok { blobName := [], mimeType := "a" }
  ∧ (getParsedEPFromString envC1 (base58Encode [0x12, 0x01, 0x61]) "").Str ≠
      base58Encode [0x12, 0x01, 0x61]
  ∧ (getParsedEPFromString envC1 (base58Encode [0x12, 0x01, 0x61]) "").Err = "empty blob name" := by
  refine ⟨by decide, by decide, by decide, by decide, by decide⟩

/-- C2.  The claim as frozen lists three failure classes (empty input,
base58 round-trip failure, protobuf unmarshal failure) and asserts decode
succeeds in every other case.  The counterexample below shows a fourth
failure class exists: bytes that unmarshal but whose Reference fails the
structural checks of getParsedEP (re-marshal failure or an invalid blob
name).  Amended claim, proved here: empty input fails with the missing
reference message before any decoding; non-empty text failing the exact
base58 round-trip fails with the not-a-base58 message; round-tripping text
whose bytes do not unmarshal fails with the underlying decode message; text
whose unmarshalled Reference fails re-marshal or blob name validation also
fails with the underlying message; and decode succeeds in every other
case. -/
theorem c2_decode_classification (env : Env) (eps : String) :
    (eps = "" → extractParams env eps =
      { DefaultEP := env.cfgEntrypoint, EP := { Err := "Missing entrypoint data" } })
  ∧ (eps ≠ "" → env.b58enc (env.b58dec eps) ≠ eps →
      (extractParams env eps).EP.Err = "invalid entrypoint - not a base58 data")
  ∧ (∀ e, eps ≠ "" → env.b58enc (env.b58dec eps) = eps →
      env.protoUnmarshalEP (env.b58dec eps) = .error e →
      (extractParams env eps).EP.Err = e)
  ∧ (∀ ep e, eps ≠ "" → env.b58enc (env.b58dec eps) = eps →
      env.protoUnmarshalEP (env.b58dec eps) = .ok ep →
      env.protoMarshal ep = .error e →
      (extractParams env eps).EP.Err = e)
  ∧ (∀ ep epBytes e, eps ≠ "" → env.b58enc (env.b58dec eps) = eps →
      env.protoUnmarshalEP (env.b58dec eps) = .ok ep →
      env.protoMarshal ep = .ok epBytes →
      env.blobNameFromBytes ep.blobName = .error e →
      (extractParams env eps).EP.Err = e)
  ∧ (∀ ep epBytes bn, eps ≠ "" → env.b58enc (env.b58dec eps) = eps →
      env.protoUnmarshalEP (env.b58dec eps) = .ok ep →
      env.protoMarshal ep = .ok epBytes →
      env.blobNameFromBytes ep.blobName = .ok bn →
      (extractParams env eps).EP.Err = "") := by
  refine ⟨?_, ?_, ?_, ?_, ?_, ?_⟩
  · intro h0
    unfold extractParams
    rw [if_pos h0]
  · intro h0 hrt
    rw [extractParams_EP env eps h0, getParsedEPFromString_notb58 env eps "" hrt]
  · intro e h0 hrt hu
    rw [extractParams_EP env eps h0, getParsedEPFromString_rt env eps "" hrt,
      getParsedEPFromBytes_err env _ _ _ hu]
  · intro ep e h0 hrt hu hm
    rw [extractParams_EP env eps h0, getParsedEPFromString_rt env eps "" hrt,
      getParsedEPFromBytes_ok env _ _ _ hu, getParsedEP_marshal_err env ep "" e hm]
  · intro ep epBytes e h0 hrt hu hm hb
    rw [extractParams_EP env eps h0, getParsedEPFromString_rt env eps "" hrt,
      getParsedEPFromBytes_ok env _ _ _ hu, getParsedEP_bn_err env ep "" epBytes e hm hb]
  · intro ep epBytes bn h0 hrt hu hm hb
    rw [extractParams_EP env eps h0, getParsedEPFromString_rt env eps "" hrt,
      getParsedEPFromBytes_ok env _ _ _ hu, getParsedEP_ok env ep "" epBytes bn hm hb]
    rfl

/-- C2 witness: concrete runs of the classification theorem on the missing,
not-base58 and malformed cases. -/
theorem c2_decode_classification_witness :
    extractParams baseEnv "" =
      { DefaultEP := baseEnv.cfgEntrypoint, EP := { Err := "Missing entrypoint data" } }
  ∧ (extractParams baseEnv "not-@-a-base58").EP.Err = "invalid entrypoint - not a base58 data"
  ∧ (extractParams baseEnv "6").EP.Err = "cannot parse" :=
  ⟨(c2_decode_classification baseEnv "").1 rfl,
    (c2_decode_classification baseEnv "not-@-a-base58").2.1 (by decide) (by decide),
    (c2_decode_classification baseEnv "6").2.2.1 "cannot parse" (by decide) (by decide) (by decide)⟩

/-- C2 counterexample: at the text base58Encode [0x12, 0x01, 0x62] none of
the three failure conditions of the frozen claim holds (the text is
non-empty, round-trips through base58, and its bytes unmarshal as a
Reference), yet decode does not succeed: the entry error slot carries the
blob name failure. -/
theorem c2_counterexample :
    base58Encode [0x12, 0x01, 0x62] ≠ ""
  ∧ envC2.b58enc (envC2.b58dec (base58Encode [0x12, 0x01, 0x62])) = base58Encode [0x12, 0x01, 0x62]
  ∧ envC2.protoUnmarshalEP (envC2.b58dec (base58Encode [0x12, 0x01, 0x62])) =
      .ok { blobName := [], mimeType := "b" }
  ∧ (extractParams envC2 (base58Encode [0x12, 0x01, 0x62])).EP.Err = "empty blob name" := by
  refine ⟨by decide, by decide, by decide, by decide⟩

/-- Environment for the C3 witness: a pathological reference whose MIME type
is the directory constant while its blob name carries the dynamic-link tag,
so both classification flags are set at once. -/
def envW3 : Env :=
  { baseEnv with
    protoMarshal := fun ep =>
      if ep = { blobName := [1], mimeType := cinodeDirMimeType } then .ok [77]
      else .error "cannot marshal" }

/-- C3.  For every structurally valid Reference (its marshal succeeds and
its blob name is accepted), resolution never fails, and the two flags are
computed independently: IsDir is exactly the comparison of the declared MIME
type with the reserved directory constant, and IsLink is exactly the
comparison of the blob name type tag with the reserved dynamic-link tag. -/
theorem c3_resolve_classification (env : Env) (ep : Entrypoint) (name : String)
    (epBytes : List UInt8) (bn : BlobName)
    (hm : env.protoMarshal ep = .ok epBytes)
    (hb : env.blobNameFromBytes ep.blobName = .ok bn) :
    (getParsedEP env ep name).Err = ""
  ∧ (getParsedEP env ep name).IsDir = (ep.mimeType == cinodeDirMimeType)
  ∧ (getParsedEP env ep name).IsLink = (bn.btype == dynamicLinkType) := by
  rw [getParsedEP_ok env ep name epBytes bn hm hb]
  exact ⟨rfl, rfl, rfl⟩

/-- C3 witness: a concrete pathological reference carrying both the
directory MIME type and the dynamic-link blob tag resolves without error
and sets both flags. -/
theorem c3_resolve_classification_witness :
    ((getParsedEP envW3 { blobName := [1], mimeType := cinodeDirMimeType } "n").Err = ""
      ∧ (getParsedEP envW3 { blobName := [1], mimeType := cinodeDirMimeType } "n").IsDir =
          (cinodeDirMimeType == cinodeDirMimeType)
      ∧ (getParsedEP envW3 { blobName := [1], mimeType := cinodeDirMimeType } "n").IsLink =
          ((1 : UInt8) == dynamicLinkType))
  ∧ (cinodeDirMimeType == cinodeDirMimeType) = true
  ∧ ((1 : UInt8) == dynamicLinkType) = true :=
  ⟨c3_resolve_classification envW3 { blobName := [1], mimeType := cinodeDirMimeType } "n"
      [77] { raw := [1], btype := 1 } (by decide) (by decide),
    by decide, by decide⟩

/-- Environment for the C9 witness: every collaborator call succeeds. -/
def envW9 : Env :=
  { baseEnv with
    protoUnmarshalEP := fun b => .ok { blobName := b }
    protoMarshal := fun ep => .ok ep.blobName
    blobNameFromBytes := fun b => .ok { raw := b, btype := b.headD 0 } }

/-- C9.  Every parsed entry produced from a Reference, from bytes, or from
text is one or the other: either the error slot holds a non-empty message
and every structural field keeps its zero value (the entry is exactly the
zero record with the error slot set), or the error slot is empty and the
structural fields hold the computed values (mkParsedEP).  The collaborator
sanity hypotheses record that the Go error values the analyzer receives
carry non-empty messages. -/
theorem c9_all_or_nothing (env : Env)
    (hgu : ∀ b e, env.protoUnmarshalEP b = .error e → e ≠ "")
    (hgm : ∀ ep e, env.protoMarshal ep = .error e → e ≠ "")
    (hgb : ∀ b e, env.blobNameFromBytes b = .error e → e ≠ "") :
    (∀ ep name, (∃ e, getParsedEP env ep name = { Err := e } ∧ e ≠ "")
      ∨ (∃ epBytes bn, env.protoMarshal ep = .ok epBytes
          ∧ env.blobNameFromBytes ep.blobName = .ok bn
          ∧ getParsedEP env ep name = mkParsedEP env ep name epBytes bn))
  ∧ (∀ b name, (∃ e, getParsedEPFromBytes env b name = { Err := e } ∧ e ≠ "")
      ∨ (∃ ep epBytes bn, env.protoUnmarshalEP b = .ok ep
          ∧ env.protoMarshal ep = .ok epBytes
          ∧ env.blobNameFromBytes ep.blobName = .ok bn
          ∧ getParsedEPFromBytes env b name = mkParsedEP env ep name epBytes bn))
  ∧ (∀ s name, (∃ e, getParsedEPFromString env s name = { Err := e } ∧ e ≠ "")
      ∨ (∃ ep epBytes bn, env.b58enc (env.b58dec s) = s
          ∧ env.protoUnmarshalEP (env.b58dec s) = .ok ep
          ∧ env.protoMarshal ep = .ok epBytes
          ∧ env.blobNameFromBytes ep.blobName = .ok bn
          ∧ getParsedEPFromString env s name = mkParsedEP env ep name epBytes bn)) := by
  have hEP : ∀ ep name, (∃ e, getParsedEP env ep name = { Err := e } ∧ e ≠ "")
      ∨ (∃ epBytes bn, env.protoMarshal ep = .ok epBytes
          ∧ env.blobNameFromBytes ep.blobName = .ok bn
          ∧ getParsedEP env ep name = mkParsedEP env ep name epBytes bn) := by
    intro ep name
    cases hm : env.protoMarshal ep with
    | error e => exact .inl ⟨e, getParsedEP_marshal_err env ep name e hm, hgm ep e hm⟩
    | ok epBytes =>
      cases hb : env.blobNameFromBytes ep.blobName with
      | error e => exact .inl ⟨e, getParsedEP_bn_err env ep name epBytes e hm hb,
          hgb ep.blobName e hb⟩
      | ok bn => exact .inr ⟨epBytes, bn, rfl, rfl, getParsedEP_ok env ep name epBytes bn hm hb⟩
  have hB : ∀ b name, (∃ e, getParsedEPFromBytes env b name = { Err := e } ∧ e ≠ "")
      ∨ (∃ ep epBytes bn, env.protoUnmarshalEP b = .ok ep
          ∧ env.protoMarshal ep = .ok epBytes
          ∧ env.blobNameFromBytes ep.blobName = .ok bn
          ∧ getParsedEPFromBytes env b name = mkParsedEP env ep name epBytes bn) := by
    intro b name
    cases hu : env.protoUnmarshalEP b with
    | error e => exact .inl ⟨e, getParsedEPFromBytes_err env b name e hu, hgu b e hu⟩
    | ok ep =>
      rcases hEP ep name with ⟨e, hEq, hne⟩ | ⟨epBytes, bn, hm, hb2, hEq⟩
      · exact .inl ⟨e, by rw [getParsedEPFromBytes_ok env b name ep hu, hEq], hne⟩
      · exact .inr ⟨ep, epBytes, bn, rfl, hm, hb2,
          by rw [getParsedEPFromBytes_ok env b name ep hu, hEq]⟩
  refine ⟨hEP, hB, ?_⟩
  intro s name
  by_cases hrt : env.b58enc (env.b58dec s) = s
  · rcases hB (env.b58dec s) name with ⟨e, hEq, hne⟩ | ⟨ep, epBytes, bn, hu, hm, hb2, hEq⟩
    · exact .inl ⟨e, by rw [getParsedEPFromString_rt env s name hrt, hEq], hne⟩
    · exact .inr ⟨ep, epBytes, bn, hrt, hu, hm, hb2,
        by rw [getParsedEPFromString_rt env s name hrt, hEq]⟩
  · exact .inl ⟨"invalid entrypoint - not a base58 data",
      getParsedEPFromString_notb58 env s name hrt, by decide⟩

/-- C9 witness: the dichotomy instantiated at a concrete reference, a
concrete byte string and a concrete text under envW9. -/
theorem c9_all_or_nothing_witness :
    ((∃ e, getParsedEP envW9 { blobName := [3] } "n" = { Err := e } ∧ e ≠ "")
      ∨ (∃ epBytes bn, envW9.protoMarshal { blobName := [3] } = .ok epBytes
          ∧ envW9.blobNameFromBytes [3] = .ok bn
          ∧ getParsedEP envW9 { blobName := [3] } "n" =
              mkParsedEP envW9 { blobName := [3] } "n" epBytes bn))
  ∧ ((∃ e, getParsedEPFromBytes envW9 [4] "n" = { Err := e } ∧ e ≠ "")
      ∨ (∃ ep epBytes bn, envW9.protoUnmarshalEP [4] = .ok ep
          ∧ envW9.protoMarshal ep = .ok epBytes
          ∧ envW9.blobNameFromBytes ep.blobName = .ok bn
          ∧ getParsedEPFromBytes envW9 [4] "n" = mkParsedEP envW9 ep "n" epBytes bn)) :=
  ⟨(c9_all_or_nothing envW9
      (by intro b e h; simp [envW9, baseEnv] at h)
      (by intro ep e h; simp [envW9, baseEnv] at h)
      (by intro b e h; simp [envW9, baseEnv] at h)).1 { blobName := [3] } "n",
    (c9_all_or_nothing envW9
      (by intro b e h; simp [envW9, baseEnv] at h)
      (by intro ep e h; simp [envW9, baseEnv] at h)
      (by intro b e h; simp [envW9, baseEnv] at h)).2.1 [4] "n"⟩

theorem extractParams_cases (env : Env) (eps : String) :
    (∃ p e, extractParams env eps = { DefaultEP := env.cfgEntrypoint, EP := p, ContentErr := e })
  ∨ (∃ c, extractParams env eps = branchView env (getParsedEPFromString env eps "") c) := by
  unfold extractParams
  by_cases h0 : eps = ""
  · rw [if_pos h0]
    exact .inl ⟨{ Err := "Missing entrypoint data" }, "", rfl⟩
  · rw [if_neg h0]
    by_cases h1 : (getParsedEPFromString env eps "").Err ≠ ""
    · rw [if_pos h1]
      exact .inl ⟨getParsedEPFromString env eps "", "", rfl⟩
    · rw [if_neg h1]
      cases hr : readBlob env (getParsedEPFromString env eps "").EP with
      | error e => exact .inl ⟨getParsedEPFromString env eps "", e, rfl⟩
      | ok c => exact .inr ⟨c, rfl⟩

theorem branchView_exclusive (env : Env) (epp : ParsedEP) (c : List UInt8) :
    ((branchView env epp c).Link ≠ ({} : ParsedEP) →
      (branchView env epp c).EP.IsLink = true
      ∧ (branchView env epp c).DirErr = "" ∧ (branchView env epp c).DirContent = []
      ∧ (branchView env epp c).Image = "" ∧ (branchView env epp c).Text = "")
  ∧ ((branchView env epp c).DirErr ≠ "" ∨ (branchView env epp c).DirContent ≠ [] →
      (branchView env epp c).EP.IsLink = false ∧ (branchView env epp c).EP.IsDir = true
      ∧ (branchView env epp c).Link = ({} : ParsedEP)
      ∧ (branchView env epp c).Image = "" ∧ (branchView env epp c).Text = "")
  ∧ ((branchView env epp c).Image ≠ "" →
      (branchView env epp c).EP.IsLink = false ∧ (branchView env epp c).EP.IsDir = false
      ∧ (branchView env epp c).EP.MimeType.startsWith "image/" = true
      ∧ (branchView env epp c).Link = ({} : ParsedEP)
      ∧ (branchView env epp c).DirErr = "" ∧ (branchView env epp c).DirContent = []
      ∧ (branchView env epp c).Text = "")
  ∧ ((branchView env epp c).Text ≠ "" →
      (branchView env epp c).EP.IsLink = false ∧ (branchView env epp c).EP.IsDir = false
      ∧ (branchView env epp c).EP.MimeType.startsWith "image/" = false
      ∧ (branchView env epp c).EP.MimeType.startsWith "text/" = true
      ∧ (branchView env epp c).Link = ({} : ParsedEP)
      ∧ (branchView env epp c).DirErr = "" ∧ (branchView env epp c).DirContent = []
      ∧ (branchView env epp c).Image = "") := by
  unfold branchView
  by_cases hl : epp.IsLink = true
  · rw [if_pos hl]
    refine ⟨fun _ => ⟨hl, rfl, rfl, rfl, rfl⟩, ?_, ?_, ?_⟩ <;> intro h <;> simp at h
  · rw [if_neg hl]
    have hl' : epp.IsLink = false := by revert hl; cases epp.IsLink <;> simp
    by_cases hd : epp.IsDir = true
    · rw [if_pos hd]
      refine ⟨?_, fun _ => ⟨hl', hd, rfl, rfl, rfl⟩, ?_, ?_⟩ <;> intro h <;> simp at h
    · rw [if_neg hd]
      have hd' : epp.IsDir = false := by revert hd; cases epp.IsDir <;> simp
      by_cases hi : epp.MimeType.startsWith "image/" = true
      · rw [if_pos hi]
        refine ⟨?_, ?_, fun _ => ⟨hl', hd', hi, rfl, rfl, rfl, rfl⟩, ?_⟩ <;>
          intro h <;> simp at h
      · rw [if_neg hi]
        have hi' : epp.MimeType.startsWith "image/" = false := by
          revert hi; cases epp.MimeType.startsWith "image/" <;> simp
        by_cases ht : epp.MimeType.startsWith "text/" = true
        · rw [if_pos ht]
          refine ⟨?_, ?_, ?_, fun _ => ⟨hl', hd', hi', ht, rfl, rfl, rfl, rfl⟩⟩ <;>
            intro h <;> simp at h
        · rw [if_neg ht]
          refine ⟨?_, ?_, ?_, ?_⟩ <;> intro h <;> simp at h

/-- C4.  Every rendered view populates at most one of the four
type-specific payloads (link target entry, directory listing with its
error slot, base64 image, raw text), the populated one selected by the
fixed precedence of the Go switch: link, then directory, then the
image MIME prefix, then the text MIME prefix, then none.  In particular an
entry flagged as both link and directory only ever populates the link
payload (first conjunct: a populated link payload forces every directory
field to stay empty). -/
theorem c4_payload_exclusivity (env : Env) (eps : String) :
    ((extractParams env eps).Link ≠ ({} : ParsedEP) →
      (extractParams env eps).EP.IsLink = true
      ∧ (extractParams env eps).DirErr = "" ∧ (extractParams env eps).DirContent = []
      ∧ (extractParams env eps).Image = "" ∧ (extractParams env eps).Text = "")
  ∧ ((extractParams env eps).DirErr ≠ "" ∨ (extractParams env eps).DirContent ≠ [] →
      (extractParams env eps).EP.IsLink = false ∧ (extractParams env eps).EP.IsDir = true
      ∧ (extractParams env eps).Link = ({} : ParsedEP)
      ∧ (extractParams env eps).Image = "" ∧ (extractParams env eps).Text = "")
  ∧ ((extractParams env eps).Image ≠ "" →
      (extractParams env eps).EP.IsLink = false ∧ (extractParams env eps).EP.IsDir = false
      ∧ (extractParams env eps).EP.MimeType.startsWith "image/" = true
      ∧ (extractParams env eps).Link = ({} : ParsedEP)
      ∧ (extractParams env eps).DirErr = "" ∧ (extractParams env eps).DirContent = []
      ∧ (extractParams env eps).Text = "")
  ∧ ((extractParams env eps).Text ≠ "" →
      (extractParams env eps).EP.IsLink = false ∧ (extractParams env eps).EP.IsDir = false
      ∧ (extractParams env eps).EP.MimeType.startsWith "image/" = false
      ∧ (extractParams env eps).EP.MimeType.startsWith "text/" = true
      ∧ (extractParams env eps).Link = ({} : ParsedEP)
      ∧ (extractParams env eps).DirErr = "" ∧ (extractParams env eps).DirContent = []
      ∧ (extractParams env eps).Image = "") := by
  rcases extractParams_cases env eps with ⟨p, e, hEq⟩ | ⟨c, hEq⟩
  · rw [hEq]
    refine ⟨?_, ?_, ?_, ?_⟩ <;> intro h <;> simp at h
  · rw [hEq]
    exact branchView_exclusive env (getParsedEPFromString env eps "") c

/-- Environment for the C4 witness: a link-classified entrypoint whose
decrypted content fails to decode, so the link payload is populated with
its error slot. -/
def envW4 : Env :=
  { baseEnv with
    protoUnmarshalEP := fun b =>
      if b = [40] then .ok { blobName := [1, 9], keyInfo := some { key := [5] } }
      else .error "cannot parse"
    protoMarshal := fun ep =>
      if ep = { blobName := [1, 9], keyInfo := some { key := [5] } } then .ok [40]
      else .error "cannot marshal"
    beOpen := fun _ _ => .ok [9, 9] }

/-- C4 witness: a concrete link view with a populated link payload keeps
every other payload empty. -/
theorem c4_payload_exclusivity_witness :
    (extractParams envW4 (base58Encode [40])).EP.IsLink = true
  ∧ (extractParams envW4 (base58Encode [40])).DirErr = ""
  ∧ (extractParams envW4 (base58Encode [40])).DirContent = []
  ∧ (extractParams envW4 (base58Encode [40])).Image = ""
  ∧ (extractParams envW4 (base58Encode [40])).Text = "" :=
  (c4_payload_exclusivity envW4 (base58Encode [40])).1 (by decide)

/-- C6.  Errors surface as data with this partiality: a failure to open or
read the blob content leaves only the content read error in the view (the
view is exactly the record with the classified entry and the error: hex
dump empty, content length zero, no payload), while a directory or
link-target decode failure after a successful read records the decode error
without clearing the already computed hex dump and content length. -/
theorem c6_error_partiality (env : Env) (eps : String) (ep : Entrypoint)
    (epBytes : List UInt8) (bn : BlobName)
    (h0 : eps ≠ "")
    (hrt : env.b58enc (env.b58dec eps) = eps)
    (hu : env.protoUnmarshalEP (env.b58dec eps) = .ok ep)
    (hm : env.protoMarshal ep = .ok epBytes)
    (hb : env.blobNameFromBytes ep.blobName = .ok bn) :
    (∀ e, env.beOpen bn (epKeyBytes (some ep)) = .error e →
      extractParams env eps =
        { DefaultEP := env.cfgEntrypoint, EP := mkParsedEP env ep "" epBytes bn,
          ContentErr := e })
  ∧ (∀ content e, env.beOpen bn (epKeyBytes (some ep)) = .ok content →
      (mkParsedEP env ep "" epBytes bn).IsLink = true →
      env.protoUnmarshalEP content = .error e →
      (extractParams env eps).Link.Err = e
      ∧ (extractParams env eps).ContentHexDump = hexDump content
      ∧ (extractParams env eps).ContentLen = content.length
      ∧ (extractParams env eps).ContentErr = "")
  ∧ (∀ content derr entries, env.beOpen bn (epKeyBytes (some ep)) = .ok content →
      (mkParsedEP env ep "" epBytes bn).IsLink = false →
      (mkParsedEP env ep "" epBytes bn).IsDir = true →
      env.protoUnmarshalDir content = (some derr, entries) →
      (extractParams env eps).DirErr = derr
      ∧ (extractParams env eps).ContentHexDump = hexDump content
      ∧ (extractParams env eps).ContentLen = content.length
      ∧ (extractParams env eps).ContentErr = "") := by
  have hS := extractParams_success env eps ep epBytes bn h0 hrt hu hm hb
  refine ⟨?_, ?_, ?_⟩
  · intro e he
    rw [hS, he]
  · intro content e hc hl hu2
    have hS2 : extractParams env eps =
        branchView env (mkParsedEP env ep "" epBytes bn) content := by
      rw [hS, hc]
    rw [hS2]
    unfold branchView
    rw [if_pos hl, getParsedEPFromBytes_err env content "" e hu2]
    exact ⟨rfl, rfl, rfl, rfl⟩
  · intro content derr entries hc hl hd hdir
    have hS2 : extractParams env eps =
        branchView env (mkParsedEP env ep "" epBytes bn) content := by
      rw [hS, hc]
    rw [hS2]
    unfold branchView
    rw [if_neg (by simp [hl]), if_pos hd, hdir]
    exact ⟨rfl, rfl, rfl, rfl⟩

/-- Environment for the C6 witness: the blob content cannot be opened. -/
def envW6 : Env :=
  { baseEnv with
    protoUnmarshalEP := fun b =>
      if b = [41] then .ok { blobName := [0, 3] } else .error "cannot parse"
    protoMarshal := fun ep =>
      if ep = { blobName := [0, 3] } then .ok [41] else .error "cannot marshal" }

/-- C6 witness: a concrete view whose content read fails carries only the
content read error. -/
theorem c6_error_partiality_witness :
    extractParams envW6 (base58Encode [41]) =
      { DefaultEP := envW6.cfgEntrypoint,
        EP := mkParsedEP envW6 { blobName := [0, 3] } "" [41] { raw := [0, 3], btype := 0 },
        ContentErr := "not found" } :=
  (c6_error_partiality envW6 (base58Encode [41]) { blobName := [0, 3] } [41]
      { raw := [0, 3], btype := 0 }
      (by decide) (by decide) (by decide) (by decide) (by decide)).1
    "not found" (by decide)

/-- Environment for the C10 witness: a directory-classified entrypoint whose
content reads successfully but fails the directory decode while still
yielding one partially decoded entry. -/
def envW10 : Env :=
  { baseEnv with
    protoUnmarshalEP := fun b =>
      if b = [42] then .ok { blobName := [0, 4], mimeType := cinodeDirMimeType }
      else .error "cannot parse"
    protoMarshal := fun ep =>
      if ep = { blobName := [0, 4], mimeType := cinodeDirMimeType } then .ok [42]
      else .error "cannot marshal"
    beOpen := fun _ _ => .ok [1, 2]
    protoUnmarshalDir := fun _ => (some "cannot parse dir", [("x", { blobName := [9] })]) }

/-- C10.  When the decrypted content of a directory-classified entry fails
the directory decode, the error slot is set, yet the implementation still
iterates whatever entries the partial decode produced and appends them to
the directory listing, so one view can carry both the decode error and a
non-empty listing. -/
theorem c10_partial_dir_listing (env : Env) (eps : String) (ep : Entrypoint)
    (epBytes : List UInt8) (bn : BlobName) (content : List UInt8)
    (derr : String) (entries : List (String × Entrypoint))
    (h0 : eps ≠ "")
    (hrt : env.b58enc (env.b58dec eps) = eps)
    (hu : env.protoUnmarshalEP (env.b58dec eps) = .ok ep)
    (hm : env.protoMarshal ep = .ok epBytes)
    (hb : env.blobNameFromBytes ep.blobName = .ok bn)
    (hc : env.beOpen bn (epKeyBytes (some ep)) = .ok content)
    (hl : (mkParsedEP env ep "" epBytes bn).IsLink = false)
    (hd : (mkParsedEP env ep "" epBytes bn).IsDir = true)
    (hdir : env.protoUnmarshalDir content = (some derr, entries)) :
    (extractParams env eps).DirErr = derr
  ∧ (extractParams env eps).DirContent = entries.map (fun e => getParsedEP env e.2 e.1) := by
  have hS2 : extractParams env eps =
      branchView env (mkParsedEP env ep "" epBytes bn) content := by
    rw [extractParams_success env eps ep epBytes bn h0 hrt hu hm hb, hc]
  rw [hS2]
  unfold branchView
  rw [if_neg (by simp [hl]), if_pos hd, hdir]
  exact ⟨rfl, rfl⟩

/-- C10 witness: a concrete view carrying both a directory decode error and
a non-empty partially decoded listing. -/
theorem c10_partial_dir_listing_witness :
    ((extractParams envW10 (base58Encode [42])).DirErr = "cannot parse dir"
      ∧ (extractParams envW10 (base58Encode [42])).DirContent =
          [("x", ({ blobName := [9] } : Entrypoint))].map
            (fun e => getParsedEP envW10 e.2 e.1))
  ∧ (extractParams envW10 (base58Encode [42])).DirErr ≠ ""
  ∧ (extractParams envW10 (base58Encode [42])).DirContent ≠ [] :=
  ⟨c10_partial_dir_listing envW10 (base58Encode [42])
      { blobName := [0, 4], mimeType := cinodeDirMimeType } [42]
      { raw := [0, 4], btype := 0 } [1, 2] "cannot parse dir"
      [("x", { blobName := [9] })]
      (by decide) (by decide) (by decide) (by decide) (by decide) (by decide)
      (by decide) (by decide) (by decide),
    by decide, by decide⟩

theorem strAppend_right_empty (s : String) : s ++ "" = s := by
  cases s with
  | mk l =>
    show String.mk (l ++ []) = String.mk l
    rw [List.append_nil]

theorem dumpBytes_ne_m (l : List UInt8) :
    ∀ (i : Nat) (c : Char), c ∈ (dumpBytes i l).data → c ≠ 'm' := by
  induction l with
  | nil => intro i c hc; simp [dumpBytes] at hc
  | cons b rest ih =>
    intro i c hc
    have hhex : ∀ d, d < 16 → hexDigitChar d ≠ 'm' := by decide
    rw [show dumpBytes i (b :: rest) = hexByte b ++ hexSep i ++ dumpBytes (i + 1) rest from rfl,
      strData_append, strData_append] at hc
    rcases List.mem_append.mp hc with hc1 | hc2
    · rcases List.mem_append.mp hc1 with hc3 | hc4
      · have hb := b.toNat_lt
        simp only [hexByte, List.mem_cons, List.not_mem_nil, or_false] at hc3
        rcases hc3 with h1 | h1 <;> subst h1 <;> apply hhex <;> omega
      · unfold hexSep at hc4
        split_ifs at hc4 <;> simp at hc4 <;>
          first | decide | (rcases hc4 with h1 | h1 <;> subst h1 <;> decide) | (subst hc4; decide)
    · exact ih (i + 1) c hc2

theorem hexDump_le (content : List UInt8) (h : content.length ≤ maxBytesDump) :
    hexDump content = dumpBytes 0 content := by
  unfold hexDump
  unfold maxBytesDump at h
  rw [if_neg (by unfold maxBytesDump; omega),
    List.take_of_length_le (by unfold maxBytesDump; omega), strAppend_right_empty]

theorem hexDump_gt (content : List UInt8) (h : maxBytesDump < content.length) :
    hexDump content = dumpBytes 0 (content.take maxBytesDump) ++
      (".... (" ++ toString (content.length - maxBytesDump) ++ " more)") := by
  unfold hexDump
  rw [if_pos h]

/-- C5.  For every successfully read content of length n, the view hex dump
is the pure hexDump function of the content and the view length is n; the
dump is the per-byte loop body over the first min(n, maxBytesDump) bytes
(two hex digits and the separator that inserts a line break after every
32nd byte and an extra space after every 8th); the literal more-suffix with
count n minus 2048 appears exactly when n exceeds the 2048-byte cap (for
n within the cap the dump contains no character of the word more at all,
its characters being hex digits, spaces and newlines); and content of
length 12345 yields a dump ending in the literal text (10297 more). -/
theorem c5_hex_dump (env : Env) (eps : String) (ep : Entrypoint)
    (epBytes : List UInt8) (bn : BlobName) (content : List UInt8)
    (h0 : eps ≠ "")
    (hrt : env.b58enc (env.b58dec eps) = eps)
    (hu : env.protoUnmarshalEP (env.b58dec eps) = .ok ep)
    (hm : env.protoMarshal ep = .ok epBytes)
    (hb : env.blobNameFromBytes ep.blobName = .ok bn)
    (hc : env.beOpen bn (epKeyBytes (some ep)) = .ok content) :
    (extractParams env eps).ContentHexDump = hexDump content
  ∧ (extractParams env eps).ContentLen = content.length
  ∧ (content.length ≤ maxBytesDump → hexDump content = dumpBytes 0 content)
  ∧ (content.length ≤ maxBytesDump → ∀ ch ∈ (hexDump content).data, ch ≠ 'm')
  ∧ (maxBytesDump < content.length →
      (hexDump content).data = (dumpBytes 0 (content.take maxBytesDump)).data
        ++ (".... (" ++ toString (content.length - maxBytesDump) ++ " more)").data)
  ∧ (content.length = 12345 →
      ∃ pre, (hexDump content).data = pre ++ ("... (10297 more)").data) := by
  have hS2 : extractParams env eps =
      branchView env (mkParsedEP env ep "" epBytes bn) content := by
    rw [extractParams_success env eps ep epBytes bn h0 hrt hu hm hb, hc]
  refine ⟨by rw [hS2]; exact branchView_ContentHexDump env _ content,
    by rw [hS2]; exact branchView_ContentLen env _ content,
    hexDump_le content, ?_, ?_, ?_⟩
  · intro h ch hch
    rw [hexDump_le content h] at hch
    exact dumpBytes_ne_m content 0 ch hch
  · intro h
    rw [hexDump_gt content h, strData_append]
  · intro h12
    have hgt : maxBytesDump < content.length := by rw [h12]; decide
    refine ⟨(dumpBytes 0 (content.take maxBytesDump)).data ++ ['.'], ?_⟩
    rw [hexDump_gt content hgt, strData_append, h12]
    have hsfx : ((".... (" ++ toString ((12345 : Nat) - maxBytesDump) ++ " more)") : String).data
        = '.' :: ("... (10297 more)").data := by decide
    rw [hsfx, List.append_cons]

/-- Environment for the C5 witness: the blob content is 12345 zero bytes. -/
def envW5 : Env :=
  { baseEnv with
    protoUnmarshalEP := fun b =>
      if b = [45] then .ok { blobName := [0, 5] } else .error "cannot parse"
    protoMarshal := fun ep =>
      if ep = { blobName := [0, 5] } then .ok [45] else .error "cannot marshal"
    beOpen := fun _ _ => .ok (List.replicate 12345 0) }

/-- C5 witness: the hex dump facts instantiated on concrete content of
length 12345. -/
theorem c5_hex_dump_witness :
    (extractParams envW5 (base58Encode [45])).ContentHexDump =
        hexDump (List.replicate 12345 0)
  ∧ (extractParams envW5 (base58Encode [45])).ContentLen =
        (List.replicate 12345 (0 : UInt8)).length
  ∧ ((List.replicate 12345 (0 : UInt8)).length ≤ maxBytesDump →
      hexDump (List.replicate 12345 0) = dumpBytes 0 (List.replicate 12345 0))
  ∧ ((List.replicate 12345 (0 : UInt8)).length ≤ maxBytesDump →
      ∀ ch ∈ (hexDump (List.replicate 12345 0)).data, ch ≠ 'm')
  ∧ (maxBytesDump < (List.replicate 12345 (0 : UInt8)).length →
      (hexDump (List.replicate 12345 0)).data =
        (dumpBytes 0 ((List.replicate 12345 0).take maxBytesDump)).data
          ++ (".... (" ++
                toString ((List.replicate 12345 (0 : UInt8)).length - maxBytesDump) ++
                " more)").data)
  ∧ ((List.replicate 12345 (0 : UInt8)).length = 12345 →
      ∃ pre, (hexDump (List.replicate 12345 0)).data = pre ++ ("... (10297 more)").data) :=
  c5_hex_dump envW5 (base58Encode [45]) { blobName := [0, 5] } [45]
    { raw := [0, 5], btype := 0 } (List.replicate 12345 0)
    (by decide) (by decide) (by decide) (by decide) (by decide) rfl

/-- Environment for C7: a fully successful link scenario.  The decrypted
content [44] fails the target Reference decode, which is irrelevant here;
what matters is that the raw (pre-decryption) bytes offered on the dsRawGet
channel are never consulted. -/
def envW7 : Env :=
  { baseEnv with
    protoUnmarshalEP := fun b =>
      if b = [43] then .ok { blobName := [1, 8], keyInfo := some { key := [6] } }
      else .error "cannot parse"
    protoMarshal := fun ep =>
      if ep = { blobName := [1, 8], keyInfo := some { key := [6] } } then .ok [43]
      else .error "cannot marshal"
    beOpen := fun _ _ => .ok [44] }

/-- envW7 with empty raw link envelope bytes. -/
def envW7a : Env := { envW7 with dsRawGet := fun _ => .ok [] }

/-- envW7 with a well-formed raw link envelope of 114 zero bytes (the
minimum fixed-field length for a 32-byte public key and a 64-byte
signature). -/
def envW7b : Env := { envW7 with dsRawGet := fun _ => .ok (List.replicate 114 0) }

/-- C7.  The claim (and spec section 4.4) says the inspector both re-decodes
the decrypted content as a Reference and independently parses the raw
pre-decryption bytes with the link payload parser.  The code does only the
former: extractParams never consults the raw byte channel, so the rendered
view is invariant under any change of the raw bytes (first conjunct, for
every environment and input), and at the concrete link entrypoint below two
environments whose raw link envelopes parse to different link payloads
produce identical views while the link target decode result is carried. -/
theorem c7_raw_bytes_ignored :
    (∀ (env : Env) (f g : BlobName → Except String (List UInt8)) (s : String),
      extractParams { env with dsRawGet := f } s = extractParams { env with dsRawGet := g } s)
  ∧ (extractParams envW7a (base58Encode [43])).EP.IsLink = true
  ∧ (extractParams envW7a (base58Encode [43])).ContentErr = ""
  ∧ (extractParams envW7a (base58Encode [43])).Link.Err = "cannot parse"
  ∧ envW7a.dsRawGet { raw := [1, 8], btype := 1 } = .ok []
  ∧ envW7b.dsRawGet { raw := [1, 8], btype := 1 } = .ok (List.replicate 114 0)
  ∧ parseLinkPayload 32 64 [] = .error .truncatedLinkPayload
  ∧ parseLinkPayload 32 64 (List.replicate 114 0) = .ok
      { version := 0, publicKey := List.replicate 32 0, nonce := 0,
        signature := List.replicate 64 0, contentVersion := 0, iv := [] }
  ∧ extractParams envW7a (base58Encode [43]) = extractParams envW7b (base58Encode [43]) :=
  ⟨fun env f g s => rfl, by decide, by decide, by decide, rfl, rfl, rfl, by decide, by decide⟩

set_option maxHeartbeats 1000000 in
/-- C8.  Full characterisation of the link payload parser: an input shorter
than the minimum fixed-field length fails with truncatedLinkPayload
(whichever step runs out of bytes); an input long enough for the fixed
fields whose IV-length byte has the high bit set fails with invalidIVSize
no matter how many bytes remain (the IV bytes are not consumed); an input
whose declared IV length exceeds the remaining bytes fails with
truncatedLinkPayload; and otherwise the parser succeeds with every field
cut from the input in the fixed order (version byte, public key, big-endian
nonce, signature, big-endian content version, IV), so no partial payload is
ever returned. -/
theorem c8_link_payload_parse_spec (pkLen sigLen : Nat) (b : List UInt8) :
    (b.length < linkPayloadMinLen pkLen sigLen →
      parseLinkPayload pkLen sigLen b = .error .truncatedLinkPayload)
  ∧ (linkPayloadMinLen pkLen sigLen ≤ b.length →
      128 ≤ (((((((b.drop 1).drop pkLen).drop 8).drop sigLen).drop 8).headD 0)).toNat →
      parseLinkPayload pkLen sigLen b = .error .invalidIVSize)
  ∧ (linkPayloadMinLen pkLen sigLen ≤ b.length →
      (((((((b.drop 1).drop pkLen).drop 8).drop sigLen).drop 8).headD 0)).toNat < 128 →
      b.length < linkPayloadMinLen pkLen sigLen
        + (((((((b.drop 1).drop pkLen).drop 8).drop sigLen).drop 8).headD 0)).toNat →
      parseLinkPayload pkLen sigLen b = .error .truncatedLinkPayload)
  ∧ (linkPayloadMinLen pkLen sigLen ≤ b.length →
      (((((((b.drop 1).drop pkLen).drop 8).drop sigLen).drop 8).headD 0)).toNat < 128 →
      linkPayloadMinLen pkLen sigLen
        + (((((((b.drop 1).drop pkLen).drop 8).drop sigLen).drop 8).headD 0)).toNat ≤ b.length →
      parseLinkPayload pkLen sigLen b = .ok
        { version := b.headD 0
          publicKey := (b.drop 1).take pkLen
          nonce := bytesToNat (((b.drop 1).drop pkLen).take 8)
          signature := ((((b.drop 1).drop pkLen).drop 8)).take sigLen
          contentVersion := bytesToNat ((((((b.drop 1).drop pkLen).drop 8)).drop sigLen).take 8)
          iv := ((((((b.drop 1).drop pkLen).drop 8).drop sigLen).drop 8).drop 1).take
            (((((((b.drop 1).drop pkLen).drop 8).drop sigLen).drop 8).headD 0)).toNat }) := by
  unfold linkPayloadMinLen
  refine ⟨?_, ?_, ?_, ?_⟩
  · intro h
    simp only [parseLinkPayload, List.length_drop]
    split_ifs <;> first | rfl | omega
  · intro h1 h2
    simp only [parseLinkPayload, List.length_drop]
    split_ifs <;> first | rfl | omega
  · intro h1 h2 h3
    simp only [parseLinkPayload, List.length_drop]
    split_ifs <;> first | rfl | omega
  · intro h1 h2 h3
    simp only [parseLinkPayload, List.length_drop]
    split_ifs <;> first | rfl | omega

/-- C8 witness: the parser characterisation instantiated with a 2-byte
public key and a 3-byte signature on four concrete envelopes: one too short,
one whose IV-length byte has the high bit set, one whose declared IV length
exceeds the remaining bytes, and one fully well formed. -/
theorem c8_link_payload_parse_spec_witness :
    parseLinkPayload 2 3 [0] = .error .truncatedLinkPayload
  ∧ parseLinkPayload 2 3 (List.replicate 22 0 ++ [128]) = .error .invalidIVSize
  ∧ parseLinkPayload 2 3 (List.replicate 22 0 ++ [2]) = .error .truncatedLinkPayload
  ∧ parseLinkPayload 2 3
      [1, 10, 11, 0, 0, 0, 0, 0, 0, 0, 1, 20, 21, 22, 0, 0, 0, 0, 0, 0, 0, 2, 2, 30, 31] =
      .ok { version := 1, publicKey := [10, 11], nonce := 1, signature := [20, 21, 22],
            contentVersion := 2, iv := [30, 31] } :=
  ⟨(c8_link_payload_parse_spec 2 3 [0]).1 (by decide),
    (c8_link_payload_parse_spec 2 3 (List.replicate 22 0 ++ [128])).2.1 (by decide) (by decide),
    (c8_link_payload_parse_spec 2 3 (List.replicate 22 0 ++ [2])).2.2.1
      (by decide) (by decide) (by decide),
    ((c8_link_payload_parse_spec 2 3
        [1, 10, 11, 0, 0, 0, 0, 0, 0, 0, 1, 20, 21, 22, 0, 0, 0, 0, 0, 0, 0, 2, 2, 30, 31]).2.2.2
      (by decide) (by decide) (by decide)).trans (by decide)⟩
